import Mathlib

/-!
# Verification of the register-based VM (src/src/vm.rs, src/src/instruction.rs, src/src/repl/mod.rs)

Shallow embedding of the bytecode interpreter. Machine integers are modelled
with `Nat`/`Int`:

* a register value (`i32`) is an `Int`; every write goes through `wrap32`, the
  two's-complement 32-bit wraparound that a release-profile Rust build gives
  to `+`, `-`, `*` (the spec, §8, states wraparound semantics);
* a byte (`u8`) is a `Nat`; the `remainder` field (`u32`) is a `Nat`;
* `usize` arithmetic on the program counter and heap addresses is reduced
  modulo `2 ^ 64` (64-bit target, release wrap);
* operations that Rust defines to panic in every profile — out-of-bounds
  slice/array indexing, `Result::unwrap` on `Err`, `%` with divisor zero or
  with the overflowing pair `(i32::MIN, -1)` — are modelled by the
  `StepResult.panic` constructor, which carries the machine state as it stood
  at the panic point (mutations already performed stay performed).
-/

namespace RegVM

/-- Opcode enumeration from `src/src/instruction.rs`. -/
inductive Opcode where
  | HLT
  | LOAD
  | ADD
  | SUB
  | MUL
  | DIV
  | JMP
  | JMPF
  | JMPB
  | EQ
  | NEQ
  | GT
  | LT
  | GTQ
  | LTQ
  | JEQ
  | LW
  | SW
  | IGL
  deriving DecidableEq

/-- Decoding of an opcode byte, `impl From<u8> for Opcode`: bytes 0–17 map to
the named opcodes, every other byte to the `IGL` sentinel. -/
def Opcode.ofByte (v : Nat) : Opcode :=
  match v with
  | 0 => .HLT
  | 1 => .LOAD
  | 2 => .ADD
  | 3 => .SUB
  | 4 => .MUL
  | 5 => .DIV
  | 6 => .JMP
  | 7 => .JMPF
  | 8 => .JMPB
  | 9 => .EQ
  | 10 => .NEQ
  | 11 => .GT
  | 12 => .LT
  | 13 => .GTQ
  | 14 => .LTQ
  | 15 => .JEQ
  | 16 => .LW
  | 17 => .SW
  | _ => .IGL

/-- Machine state, `struct VM`: 32 `i32` registers, a 1000-byte heap, a byte
program counter, the program byte buffer and the `u32` remainder field. -/
structure VM where
  registers : List Int
  heap : List Nat
  pc : Nat
  program : List Nat
  remainder : Nat
  deriving DecidableEq

/-- Freshly created machine, `VM::new`: everything zeroed, empty program. -/
def VM.new : VM :=
  { registers := List.replicate 32 0
    heap := List.replicate 1000 0
    pc := 0
    program := []
    remainder := 0 }

/-- Appending one byte to the program buffer, `VM::add_program_byte`. -/
def VM.addProgramByte (vm : VM) (b : Nat) : VM :=
  { vm with program := vm.program ++ [b] }

/-- Two's-complement 32-bit wraparound: the result of release-profile Rust
`i32` arithmetic, landing in `[-2^31, 2^31)`. -/
def wrap32 (n : Int) : Int :=
  (n + 2 ^ 31) % 2 ^ 32 - 2 ^ 31

/-- Bit pattern of an `i32` value seen as a `u32` (the Rust `as u32` cast). -/
def u32ofI32 (v : Int) : Nat :=
  (v % 2 ^ 32).toNat

/-- Reinterpretation of a `u32` bit pattern as an `i32` (the Rust `as i32`
cast). -/
def i32ofU32 (n : Nat) : Int :=
  if n < 2 ^ 31 then (n : Int) else (n : Int) - 2 ^ 32

/-- The Rust `as usize` cast of an `i32` on a 64-bit target: sign-extend,
then reinterpret as an unsigned 64-bit value. -/
def usizeOfI32 (v : Int) : Nat :=
  (v % 2 ^ 64).toNat

/-- Release-profile `usize` addition: wraps modulo `2 ^ 64`. -/
def usizeAdd (a b : Nat) : Nat :=
  (a + b) % 2 ^ 64

/-- Release-profile `usize` subtraction: wraps modulo `2 ^ 64`. -/
def usizeSub (a b : Nat) : Nat :=
  (((a : Int) - (b : Int)) % 2 ^ 64).toNat

/-- Outcome of `execute_instruction`: either a normal return carrying the
Rust `bool` (`true` = keep running), or a panic. The panic constructor keeps
the machine state as of the panic point. -/
inductive StepResult where
  | ok (vm : VM) (continuing : Bool)
  | panic (vm : VM) (msg : String)
  deriving DecidableEq

/-- Machine state carried by a step outcome. -/
def StepResult.state : StepResult → VM
  | .ok vm _ => vm
  | .panic vm _ => vm

/-- Whether a step outcome is a normal (non-panicking) return. -/
def StepResult.isOk : StepResult → Bool
  | .ok _ _ => true
  | .panic _ _ => false

/-- Register-file read `self.registers[i]`: `none` models the bounds-check
panic for an index past the end of the array. -/
def regGet (regs : List Int) (i : Nat) : Option Int :=
  regs.get? i

/-- Register-file write `self.registers[i] = v`: `none` models the
bounds-check panic. -/
def regSet (regs : List Int) (i : Nat) (v : Int) : Option (List Int) :=
  if i < regs.length then some (regs.set i v) else none

/-- Heap read `VM::load_word_from_heap`: `self.heap.get(addr..addr+4)` yields
a slice exactly when the 4-byte window is in bounds, and the four bytes are
assembled big-endian into a `u32`; `none` is the `Err` return. -/
def loadWordFromHeap (heap : List Nat) (addr : Nat) : Option Nat :=
  if addr + 4 ≤ heap.length then
    some (heap.getD addr 0 * 2 ^ 24 + heap.getD (addr + 1) 0 * 2 ^ 16 +
      heap.getD (addr + 2) 0 * 2 ^ 8 + heap.getD (addr + 3) 0)
  else
    none

/-- The byte-store loop of `VM::store_word_into_heap`
(`for i in 0..4 { self.heap[addr + i] = bytes[i]; }`): each iteration either
writes one byte or hits the bounds-check panic. An `error` result carries the
heap as already mutated by the earlier iterations — the partial write that
precedes the panic. -/
def storeBytes (heap : List Nat) (addr : Nat) : List Nat → Except (List Nat) (List Nat)
  | [] => .ok heap
  | b :: rest =>
    if addr < heap.length then storeBytes (heap.set addr b) (addr + 1) rest
    else .error heap

/-- Heap write `VM::store_word_into_heap`: split the value's 32-bit pattern
into four big-endian bytes (`(value >> 24) as u8`, …, `value as u8` — the
arithmetic shift followed by byte truncation equals dividing the `u32` bit
pattern) and store them one at a time. -/
def storeWordIntoHeap (heap : List Nat) (value : Int) (addr : Nat) :
    Except (List Nat) (List Nat) :=
  let w := u32ofI32 value
  storeBytes heap addr [w / 2 ^ 24 % 256, w / 2 ^ 16 % 256, w / 2 ^ 8 % 256, w % 256]

/-- Heap contents after a complete, in-bounds 4-byte store: the four
big-endian bytes of `w` written at `a`, `a+1`, `a+2`, `a+3`. -/
def writeWord (heap : List Nat) (a w : Nat) : List Nat :=
  (((heap.set a (w / 2 ^ 24 % 256)).set (a + 1) (w / 2 ^ 16 % 256)).set
    (a + 2) (w / 2 ^ 8 % 256)).set (a + 3) (w % 256)

/-!
Each opcode arm below receives the state with `pc` already advanced past the
opcode byte, and is written in state-explicit style: `VM::next_8_bits`
reading operand byte `k` (0-based) of the arm is the lookup
`vm.program.get? (vm.pc + k)`, and the program counter after `k` fetches is
`vm.pc + k` — so a panic raised while fetching operand byte `k`, or while
indexing the register file with that byte's value, carries `pc = vm.pc + k`
(the fetch panics before its own increment) resp. `pc = vm.pc + k + 1`.
`none` from a lookup models the corresponding indexing panic.
-/

/-- The `Opcode::LOAD` arm: one register-index byte, one big-endian 16-bit
immediate (`next_16_bits` reads both of its bytes before advancing `pc`),
stored as the register's new value. -/
def execLOAD (vm : VM) : StepResult :=
  match vm.program.get? vm.pc with
  | none => .panic vm "program index out of bounds"
  | some r =>
    match vm.program.get? (vm.pc + 1), vm.program.get? (vm.pc + 2) with
    | some hi, some lo =>
      match regSet vm.registers r (Int.ofNat (hi * 256 + lo)) with
      | none => .panic { vm with pc := vm.pc + 3 } "register index out of bounds"
      | some regs => .ok { vm with registers := regs, pc := vm.pc + 3 } true
    | _, _ => .panic { vm with pc := vm.pc + 1 } "program index out of bounds"

/-- Shared shape of the `Opcode::ADD`, `Opcode::SUB` and `Opcode::MUL` arms:
fetch two operand register values, combine them with `f`, store into the
destination register named by the third operand byte. -/
def execArith (f : Int → Int → Int) (vm : VM) : StepResult :=
  match vm.program.get? vm.pc with
  | none => .panic vm "program index out of bounds"
  | some i1 =>
    match regGet vm.registers i1 with
    | none => .panic { vm with pc := vm.pc + 1 } "register index out of bounds"
    | some r1 =>
      match vm.program.get? (vm.pc + 1) with
      | none => .panic { vm with pc := vm.pc + 1 } "program index out of bounds"
      | some i2 =>
        match regGet vm.registers i2 with
        | none => .panic { vm with pc := vm.pc + 2 } "register index out of bounds"
        | some r2 =>
          match vm.program.get? (vm.pc + 2) with
          | none => .panic { vm with pc := vm.pc + 2 } "program index out of bounds"
          | some i3 =>
            match regSet vm.registers i3 (f r1 r2) with
            | none => .panic { vm with pc := vm.pc + 3 } "register index out of bounds"
            | some regs => .ok { vm with registers := regs, pc := vm.pc + 3 } true

/-- The `Opcode::DIV` arm: the destination register receives the SUM of the
two operands (exactly as the source writes it), and only afterwards is the
remainder computed; `%` panics when the divisor is zero or on the overflowing
pair `(i32::MIN, -1)`, so that panic state already contains the destination
write. On success the remainder field gets the truncated remainder's `u32`
bit pattern (`(register1 % register2) as u32`). -/
def execDIV (vm : VM) : StepResult :=
  match vm.program.get? vm.pc with
  | none => .panic vm "program index out of bounds"
  | some i1 =>
    match regGet vm.registers i1 with
    | none => .panic { vm with pc := vm.pc + 1 } "register index out of bounds"
    | some r1 =>
      match vm.program.get? (vm.pc + 1) with
      | none => .panic { vm with pc := vm.pc + 1 } "program index out of bounds"
      | some i2 =>
        match regGet vm.registers i2 with
        | none => .panic { vm with pc := vm.pc + 2 } "register index out of bounds"
        | some r2 =>
          match vm.program.get? (vm.pc + 2) with
          | none => .panic { vm with pc := vm.pc + 2 } "program index out of bounds"
          | some i3 =>
            match regSet vm.registers i3 (wrap32 (r1 + r2)) with
            | none => .panic { vm with pc := vm.pc + 3 } "register index out of bounds"
            | some regs =>
              if r2 = 0 ∨ (r1 = -(2 ^ 31) ∧ r2 = -1) then
                .panic { vm with registers := regs, pc := vm.pc + 3 } "remainder panic"
              else
                .ok { vm with
                        registers := regs
                        pc := vm.pc + 3
                        remainder := u32ofI32 (Int.tmod r1 r2) } true

/-- The `Opcode::JMP` arm: `pc = register[R] as usize`. -/
def execJMP (vm : VM) : StepResult :=
  match vm.program.get? vm.pc with
  | none => .panic vm "program index out of bounds"
  | some i1 =>
    match regGet vm.registers i1 with
    | none => .panic { vm with pc := vm.pc + 1 } "register index out of bounds"
    | some t => .ok { vm with pc := usizeOfI32 t } true

/-- The `Opcode::JMPF` arm: `pc += register[R] as usize`, applied to the `pc`
that already sits past this instruction's opcode and operand byte. -/
def execJMPF (vm : VM) : StepResult :=
  match vm.program.get? vm.pc with
  | none => .panic vm "program index out of bounds"
  | some i1 =>
    match regGet vm.registers i1 with
    | none => .panic { vm with pc := vm.pc + 1 } "register index out of bounds"
    | some v => .ok { vm with pc := usizeAdd (vm.pc + 1) (usizeOfI32 v) } true

/-- The `Opcode::JMPB` arm: `pc -= register[R] as usize`, applied to the `pc`
that already sits past this instruction's opcode and operand byte. -/
def execJMPB (vm : VM) : StepResult :=
  match vm.program.get? vm.pc with
  | none => .panic vm "program index out of bounds"
  | some i1 =>
    match regGet vm.registers i1 with
    | none => .panic { vm with pc := vm.pc + 1 } "register index out of bounds"
    | some v => .ok { vm with pc := usizeSub (vm.pc + 1) (usizeOfI32 v) } true

/-- Shared shape of the six comparison arms (`EQ`, `NEQ`, `GT`, `LT`, `GTQ`,
`LTQ`): fetch two operand register values, write 1 to the destination
register when `cmp` holds and 0 otherwise. -/
def execCmp (cmp : Int → Int → Bool) (vm : VM) : StepResult :=
  match vm.program.get? vm.pc with
  | none => .panic vm "program index out of bounds"
  | some i1 =>
    match regGet vm.registers i1 with
    | none => .panic { vm with pc := vm.pc + 1 } "register index out of bounds"
    | some r1 =>
      match vm.program.get? (vm.pc + 1) with
      | none => .panic { vm with pc := vm.pc + 1 } "program index out of bounds"
      | some i2 =>
        match regGet vm.registers i2 with
        | none => .panic { vm with pc := vm.pc + 2 } "register index out of bounds"
        | some r2 =>
          match vm.program.get? (vm.pc + 2) with
          | none => .panic { vm with pc := vm.pc + 2 } "program index out of bounds"
          | some i3 =>
            match regSet vm.registers i3 (if cmp r1 r2 then 1 else 0) with
            | none => .panic { vm with pc := vm.pc + 3 } "register index out of bounds"
            | some regs => .ok { vm with registers := regs, pc := vm.pc + 3 } true

/-- The `Opcode::JEQ` arm: fetch the target register's value and the flag
register's value; if the flag equals 1 set `pc` to the target, otherwise
consume (and discard) one further operand byte. -/
def execJEQ (vm : VM) : StepResult :=
  match vm.program.get? vm.pc with
  | none => .panic vm "program index out of bounds"
  | some i1 =>
    match regGet vm.registers i1 with
    | none => .panic { vm with pc := vm.pc + 1 } "register index out of bounds"
    | some t =>
      match vm.program.get? (vm.pc + 1) with
      | none => .panic { vm with pc := vm.pc + 1 } "program index out of bounds"
      | some i2 =>
        match regGet vm.registers i2 with
        | none => .panic { vm with pc := vm.pc + 2 } "register index out of bounds"
        | some c =>
          if c = 1 then .ok { vm with pc := usizeOfI32 t } true
          else
            match vm.program.get? (vm.pc + 2) with
            | none => .panic { vm with pc := vm.pc + 2 } "program index out of bounds"
            | some _ => .ok { vm with pc := vm.pc + 3 } true

/-- The `Opcode::LW` arm: destination register byte, base register value,
one offset byte; load the big-endian word from `register[Rbase] as usize +
offset` and store its `as i32` reinterpretation. The source calls
`.unwrap()` on the heap read, so an out-of-bounds window is a panic. -/
def execLW (vm : VM) : StepResult :=
  match vm.program.get? vm.pc with
  | none => .panic vm "program index out of bounds"
  | some rd =>
    match vm.program.get? (vm.pc + 1) with
    | none => .panic { vm with pc := vm.pc + 1 } "program index out of bounds"
    | some i2 =>
      match regGet vm.registers i2 with
      | none => .panic { vm with pc := vm.pc + 2 } "register index out of bounds"
      | some a =>
        match vm.program.get? (vm.pc + 2) with
        | none => .panic { vm with pc := vm.pc + 2 } "program index out of bounds"
        | some off =>
          match loadWordFromHeap vm.heap (usizeAdd (usizeOfI32 a) off) with
          | none => .panic { vm with pc := vm.pc + 3 } "unwrap on heap load error"
          | some w =>
            match regSet vm.registers rd (i32ofU32 w) with
            | none => .panic { vm with pc := vm.pc + 3 } "register index out of bounds"
            | some regs => .ok { vm with registers := regs, pc := vm.pc + 3 } true

/-- The `Opcode::SW` arm: source register value, base register value, one
offset byte; store the value's four big-endian bytes at `register[Rbase] as
usize + offset`. The store loop writes byte by byte and its bounds-check
panic leaves the earlier bytes written. -/
def execSW (vm : VM) : StepResult :=
  match vm.program.get? vm.pc with
  | none => .panic vm "program index out of bounds"
  | some i1 =>
    match regGet vm.registers i1 with
    | none => .panic { vm with pc := vm.pc + 1 } "register index out of bounds"
    | some v =>
      match vm.program.get? (vm.pc + 1) with
      | none => .panic { vm with pc := vm.pc + 1 } "program index out of bounds"
      | some i2 =>
        match regGet vm.registers i2 with
        | none => .panic { vm with pc := vm.pc + 2 } "register index out of bounds"
        | some a =>
          match vm.program.get? (vm.pc + 2) with
          | none => .panic { vm with pc := vm.pc + 2 } "program index out of bounds"
          | some off =>
            match storeWordIntoHeap vm.heap v (usizeAdd (usizeOfI32 a) off) with
            | .error h => .panic { vm with heap := h, pc := vm.pc + 3 } "heap index out of bounds"
            | .ok h => .ok { vm with heap := h, pc := vm.pc + 3 } true

/-- Dispatch over the decoded opcode: the body of the `match` in
`VM::execute_instruction`. `HLT` and `IGL` return `false` ("stop"); every
other arm returns `true` ("continue") on success. -/
def execOp : Opcode → VM → StepResult
  | .HLT, vm => .ok vm false
  | .LOAD, vm => execLOAD vm
  | .ADD, vm => execArith (fun a b => wrap32 (a + b)) vm
  | .SUB, vm => execArith (fun a b => wrap32 (a - b)) vm
  | .MUL, vm => execArith (fun a b => wrap32 (a * b)) vm
  | .DIV, vm => execDIV vm
  | .JMP, vm => execJMP vm
  | .JMPF, vm => execJMPF vm
  | .JMPB, vm => execJMPB vm
  | .EQ, vm => execCmp (fun a b => a == b) vm
  | .NEQ, vm => execCmp (fun a b => a != b) vm
  | .GT, vm => execCmp (fun a b => decide (a > b)) vm
  | .LT, vm => execCmp (fun a b => decide (a < b)) vm
  | .GTQ, vm => execCmp (fun a b => decide (a ≥ b)) vm
  | .LTQ, vm => execCmp (fun a b => decide (a ≤ b)) vm
  | .JEQ, vm => execJEQ vm
  | .LW, vm => execLW vm
  | .SW, vm => execSW vm
  | .IGL, vm => .ok vm false

/-- One execution step, `VM::execute_instruction`: when `pc` is at or past
the end of the program buffer return `false` with the state untouched;
otherwise decode the opcode byte at `pc` (advancing `pc` by one) and run its
arm. -/
def VM.step (vm : VM) : StepResult :=
  if vm.program.length ≤ vm.pc then .ok vm false
  else
    match vm.program.get? vm.pc with
    | none => .panic vm "program index out of bounds"
    | some b => execOp (Opcode.ofByte b) { vm with pc := vm.pc + 1 }

/-- `VM::run_once`: execute exactly one instruction (the returned `bool` is
discarded by the source, but the state and panic behaviour are those of
`execute_instruction`). -/
def VM.runOnce (vm : VM) : StepResult :=
  vm.step

/-- Value of one hexadecimal digit character, as `u8::from_str_radix`
recognises digits in radix 16. -/
def hexDigitVal (c : Char) : Option Nat :=
  if '0' ≤ c ∧ c ≤ '9' then some (c.toNat - '0'.toNat)
  else if 'a' ≤ c ∧ c ≤ 'f' then some (c.toNat - 'a'.toNat + 10)
  else if 'A' ≤ c ∧ c ≤ 'F' then some (c.toNat - 'A'.toNat + 10)
  else none

/-- Accumulating hexadecimal evaluation of a digit string; `none` on the
first character that is not a radix-16 digit. -/
def hexNat (acc : Nat) : List Char → Option Nat
  | [] => some acc
  | c :: rest =>
    match hexDigitVal c with
    | none => none
    | some d => hexNat (acc * 16 + d) rest

/-- Model of `u8::from_str_radix(s, 16)` on the token's characters: an
optional leading sign, then at least one radix-16 digit. A plus-signed or
unsigned value parses exactly when it fits in a `u8` (the checked
accumulation of the standard library overflows exactly when the final value
exceeds 255, the accumulator being monotone); a minus-signed token parses
only when its value is zero (the first nonzero digit underflows the checked
subtraction from zero). -/
def parseU8Hex (cs : List Char) : Option Nat :=
  match cs with
  | [] => none
  | c :: rest =>
    let digits := if c = '+' ∨ c = '-' then rest else c :: rest
    if digits.isEmpty then none
    else
      match hexNat 0 digits with
      | none => none
      | some v =>
        if c = '-' then (if v = 0 then some 0 else none)
        else if v < 256 then some v else none

/-- Model of Rust `str::split(" ")` on the line's characters: the pieces
between single-space separators, empty pieces included; the result is never
the empty list (an empty input gives one empty piece). -/
def splitSpaces (cs : List Char) (acc : List Char) : List (List Char) :=
  match cs with
  | [] => [acc.reverse]
  | c :: rest =>
    if c = ' ' then acc.reverse :: splitSpaces rest []
    else splitSpaces rest (c :: acc)

/-- Token-list pass of `REPL::parse_hex`: every token must parse, and the
whole line fails on the first bad token (all-or-nothing, no partial
result). -/
def parseHexTokens : List (List Char) → Option (List Nat)
  | [] => some []
  | t :: rest =>
    match parseU8Hex t with
    | none => none
    | some b =>
      match parseHexTokens rest with
      | none => none
      | some bs => some (b :: bs)

/-- `REPL::parse_hex`: split the (already trimmed) line on single spaces,
then parse each token as one `u8` hex byte; `none` is the `Err` return. The
`isEmpty` guard mirrors the source's dead `split.is_empty()` check. -/
def parseHex (line : String) : Option (List Nat) :=
  let split := splitSpaces line.toList []
  if split.isEmpty then none else parseHexTokens split

/-- Default (non-dot-command) arm of one `REPL::run` loop iteration on an
input line: attempt `parse_hex`; on success append every parsed byte to the
program buffer, on failure report the parse error and append nothing; then —
unconditionally, exactly as the source does — call `run_once`. Returns the
step outcome together with whether a parse failure was reported. -/
def replStep (vm : VM) (line : String) : StepResult × Bool :=
  match parseHex line with
  | some bytes => (VM.step { vm with program := vm.program ++ bytes }, false)
  | none => (VM.step vm, true)

/-- Concrete machine about to execute `DIV $0, $1, $2` with both operand
registers (hence the divisor, register 1) holding zero. -/
def divZeroVM : VM :=
  { registers := List.replicate 32 0
    heap := List.replicate 1000 0
    pc := 0
    program := [5, 0, 1, 2]
    remainder := 0 }

/-- Concrete machine about to execute `DIV $3, $4, $6` with the divisor
register (register 4) holding zero. -/
def divZeroRegVM : VM :=
  { registers := List.replicate 32 0
    heap := List.replicate 1000 0
    pc := 0
    program := [5, 3, 4, 6]
    remainder := 0 }

/-- Concrete machine about to execute `ADD $99, $0, $0`: the first operand
byte names register 99, past the 32-entry register file. -/
def oobRegVM : VM :=
  { registers := List.replicate 32 0
    heap := List.replicate 1000 0
    pc := 0
    program := [2, 99, 0, 0]
    remainder := 0 }

/-- Concrete machine about to execute `SW $1, 8($2)` with `registers[1] = -1`
and `registers[2] = 990`: the composed address 998 leaves only two of the
four bytes inside the 1000-byte heap. -/
def oobSwVM : VM :=
  { registers := ((List.replicate 32 0).set 1 (-1)).set 2 990
    heap := List.replicate 1000 0
    pc := 0
    program := [17, 1, 2, 8]
    remainder := 0 }

/-- Concrete machine with a pending, not yet executed `LOAD $0, 500`
instruction in its program buffer (the interactive loop appends bytes and
then steps, so a malformed later line meets exactly this shape). -/
def pendingLoadVM : VM :=
  { registers := List.replicate 32 0
    heap := List.replicate 1000 0
    pc := 0
    program := [1, 0, 1, 244]
    remainder := 0 }

/-- Concrete machine about to execute `DIV $0, $1, $2` with
`registers[0] = 7` and `registers[1] = 2`. -/
def divSevenTwoVM : VM :=
  { registers := ((List.replicate 32 0).set 0 7).set 1 2
    heap := List.replicate 1000 0
    pc := 0
    program := [5, 0, 1, 2]
    remainder := 0 }

/-- Concrete machine about to execute `ADD $0, $1, $2` with
`registers[0] = registers[1] = 10` (the spec's §8 example). -/
def addTenVM : VM :=
  { registers := ((List.replicate 32 0).set 0 10).set 1 10
    heap := List.replicate 1000 0
    pc := 0
    program := [2, 0, 1, 2]
    remainder := 0 }

/-- Concrete machine about to execute `JMPB $0` with `registers[0] = 2`:
after consuming the two instruction bytes the PC returns to 0. -/
def jmpbVM : VM :=
  { registers := (List.replicate 32 0).set 0 2
    heap := List.replicate 1000 0
    pc := 0
    program := [8, 0]
    remainder := 0 }

/-- Concrete machine for the spec's §8 round-trip example: `registers[1] =
1589`, `registers[2] = 32`, program `[SW,1,2,8, LW,3,2,8]`. -/
def swLwVM : VM :=
  { registers := ((List.replicate 32 0).set 1 1589).set 2 32
    heap := List.replicate 1000 0
    pc := 0
    program := [17, 1, 2, 8, 16, 3, 2, 8]
    remainder := 0 }

/-! ## Helper lemmas: no arm except DIV touches the remainder field -/

theorem execLOAD_rem (vm : VM) : (execLOAD vm).state.remainder = vm.remainder := by
  unfold execLOAD
  repeat' split
  all_goals rfl

theorem execArith_rem (f : Int → Int → Int) (vm : VM) :
    (execArith f vm).state.remainder = vm.remainder := by
  unfold execArith
  repeat' split
  all_goals rfl

theorem execCmp_rem (cmp : Int → Int → Bool) (vm : VM) :
    (execCmp cmp vm).state.remainder = vm.remainder := by
  unfold execCmp
  repeat' split
  all_goals rfl

theorem execJMP_rem (vm : VM) : (execJMP vm).state.remainder = vm.remainder := by
  unfold execJMP
  repeat' split
  all_goals rfl

theorem execJMPF_rem (vm : VM) : (execJMPF vm).state.remainder = vm.remainder := by
  unfold execJMPF
  repeat' split
  all_goals rfl

theorem execJMPB_rem (vm : VM) : (execJMPB vm).state.remainder = vm.remainder := by
  unfold execJMPB
  repeat' split
  all_goals rfl

theorem execJEQ_rem (vm : VM) : (execJEQ vm).state.remainder = vm.remainder := by
  unfold execJEQ
  repeat' split
  all_goals rfl

theorem execLW_rem (vm : VM) : (execLW vm).state.remainder = vm.remainder := by
  unfold execLW
  repeat' split
  all_goals rfl

theorem execSW_rem (vm : VM) : (execSW vm).state.remainder = vm.remainder := by
  unfold execSW
  repeat' split
  all_goals rfl

theorem ofByte_div {b : Nat} (h : Opcode.ofByte b = Opcode.DIV) : b = 5 := by
  unfold Opcode.ofByte at h
  split at h <;> simp_all

/-! ## C6: end of program is a clean, idempotent stop -/

/-- C6: with the PC at or past the end of the program buffer, one execution
step reports the clean stop (`false`, no panic) and returns the state
entirely unchanged, so repeated steps from that state are idempotent. -/
theorem end_of_program_clean_stop (vm : VM) (h : vm.program.length ≤ vm.pc) :
    VM.step vm = StepResult.ok vm false := by
  unfold VM.step
  simp [h]

/-- Witness for C6 at the freshly created machine (empty program, PC 0). -/
theorem end_of_program_clean_stop_witness :
    VM.new.program.length ≤ VM.new.pc ∧ VM.step VM.new = StepResult.ok VM.new false :=
  ⟨by decide, end_of_program_clean_stop VM.new (by decide)⟩

/-! ## C9: only DIV writes the remainder field -/

/-- C9: an execution step whose decoded opcode byte is not DIV (byte 5) —
including the end-of-program case and every panicking path — leaves the
remainder field exactly unchanged. -/
theorem step_preserves_remainder_unless_div (vm : VM)
    (h : vm.program.get? vm.pc ≠ some 5) :
    (VM.step vm).state.remainder = vm.remainder := by
  unfold VM.step
  by_cases hlen : vm.program.length ≤ vm.pc
  · simp [hlen, StepResult.state]
  · simp only [hlen, if_false]
    rcases hb : vm.program.get? vm.pc with _ | b
    · rfl
    · have hbne : Opcode.ofByte b ≠ Opcode.DIV := fun hd => h (by rw [← ofByte_div hd]; exact hb)
      show (execOp (Opcode.ofByte b) { vm with pc := vm.pc + 1 }).state.remainder = vm.remainder
      cases hop : Opcode.ofByte b
      · rfl
      · exact execLOAD_rem _
      · exact execArith_rem _ _
      · exact execArith_rem _ _
      · exact execArith_rem _ _
      · exact absurd hop hbne
      · exact execJMP_rem _
      · exact execJMPF_rem _
      · exact execJMPB_rem _
      · exact execCmp_rem _ _
      · exact execCmp_rem _ _
      · exact execCmp_rem _ _
      · exact execCmp_rem _ _
      · exact execCmp_rem _ _
      · exact execCmp_rem _ _
      · exact execJEQ_rem _
      · exact execLW_rem _
      · exact execSW_rem _
      · rfl

/-- Witness for C9 at the freshly created machine. -/
theorem step_preserves_remainder_unless_div_witness :
    VM.new.program.get? VM.new.pc ≠ some 5 ∧
      (VM.step VM.new).state.remainder = VM.new.remainder :=
  ⟨by decide, step_preserves_remainder_unless_div VM.new (by decide)⟩

set_option maxRecDepth 8000

/-! ## C1: the claim is not unconditional — a zero divisor panics the DIV arm -/

/-- C1 counterexample: at the concrete state `divZeroVM` (a DIV instruction
whose operand registers hold zero, all indices below 32), the step does not
complete normally at all — the remainder computation panics on the zero
divisor — so the claim's unconditional description of the step's effect
fails at this input. -/
theorem div_zero_not_normal_step : (VM.step divZeroVM).isOk = false := by decide

/-! ## C3: division by zero is not an explicitly handled error report -/

/-- C3 (code bug evidence): at the concrete state `divZeroRegVM` — a
`DIV $3, $4, $6` whose divisor register 4 holds zero — the step evaluates
to a panic (the Rust `%` divide-by-zero panic, which aborts the process);
no error value is returned to the caller, and the destination register has
already been overwritten when the panic fires. -/
theorem div_zero_panics_not_reported :
    VM.step divZeroRegVM =
      StepResult.panic
        { divZeroRegVM with registers := (List.replicate 32 0).set 6 0, pc := 4 }
        "remainder panic" := by decide

/-! ## C4: an operand byte naming a register beyond 31 aborts the step -/

/-- C4 (code bug evidence): at the concrete state `oobRegVM` — an
`ADD $99, $0, $0` instruction — the register-file read with index 99
evaluates to a panic (the Rust array bounds-check abort) instead of being
rejected or clamped to a defined outcome. -/
theorem register_index_99_panics :
    VM.step oobRegVM = StepResult.panic { oobRegVM with pc := 2 } "register index out of bounds" := by
  decide

/-! ## C2: an out-of-bounds SW panics after writing part of the word -/

/-- C2 (code bug evidence): at the concrete state `oobSwVM` — an
`SW $1, 8($2)` with composed address 998, so the 4-byte window overhangs the
1000-byte heap — the step evaluates to a panic (not a reported error), and
the panic state's heap already contains the first two stored bytes: a
partial write that also changes the heap contents (bytes 998 and 999 went
from 0 to 255). -/
theorem sw_out_of_bounds_partial_write :
    VM.step oobSwVM =
      StepResult.panic
        { oobSwVM with
            heap := ((List.replicate 1000 0).set 998 255).set 999 255
            pc := 4 }
        "heap index out of bounds" ∧
    (VM.step oobSwVM).state.heap.getD 998 0 = 255 ∧ oobSwVM.heap.getD 998 0 = 0 := by
  refine ⟨by decide, by decide, by decide⟩

/-! ## C5: a malformed line is reported but an instruction still executes -/

/-- C5 (code bug evidence): at the concrete state `pendingLoadVM` (program
buffer holding a pending `LOAD $0, 500`, PC 0) with the malformed input line
`zz`, the interactive loop reports the parse failure and leaves the program
buffer unchanged — but, because the source calls `run_once` unconditionally,
the pending LOAD executes: register 0 becomes 500 and the PC advances to 4,
refuting the claim's "no instruction of the machine is executed". -/
theorem malformed_line_still_executes :
    replStep pendingLoadVM "zz" =
      (StepResult.ok
        { pendingLoadVM with registers := (List.replicate 32 0).set 0 500, pc := 4 }
        true,
       true) := by decide

/-! ## Helper lemmas for symbolic one-step evaluation -/

theorem step_exec (vm : VM) (b : Nat) (hb : vm.program.get? vm.pc = some b) :
    VM.step vm = execOp (Opcode.ofByte b) { vm with pc := vm.pc + 1 } := by
  have hlt : vm.pc < vm.program.length := by
    rcases List.get?_eq_some.mp hb with ⟨hh, -⟩
    exact hh
  unfold VM.step
  rw [if_neg (by omega)]
  simp only [hb]

theorem execArith_eq (f : Int → Int → Int) (vm : VM) (a b c : Nat) (r1 r2 : Int)
    (ha : vm.program.get? vm.pc = some a)
    (hb : vm.program.get? (vm.pc + 1) = some b)
    (hc : vm.program.get? (vm.pc + 2) = some c)
    (hr1 : regGet vm.registers a = some r1)
    (hr2 : regGet vm.registers b = some r2)
    (hcl : c < vm.registers.length) :
    execArith f vm =
      StepResult.ok { vm with registers := vm.registers.set c (f r1 r2), pc := vm.pc + 3 } true := by
  unfold execArith
  simp only [ha, hr1, hb, hr2, hc, regSet, if_pos hcl]

theorem execDIV_eq (vm : VM) (i1 i2 i3 : Nat) (r1 r2 : Int)
    (h1 : vm.program.get? vm.pc = some i1)
    (hr1 : regGet vm.registers i1 = some r1)
    (h2 : vm.program.get? (vm.pc + 1) = some i2)
    (hr2 : regGet vm.registers i2 = some r2)
    (h3 : vm.program.get? (vm.pc + 2) = some i3)
    (hcl : i3 < vm.registers.length)
    (hz : r2 ≠ 0) (hov : ¬(r1 = -(2 ^ 31) ∧ r2 = -1)) :
    execDIV vm = StepResult.ok
      { vm with
          registers := vm.registers.set i3 (wrap32 (r1 + r2))
          pc := vm.pc + 3
          remainder := u32ofI32 (Int.tmod r1 r2) } true := by
  unfold execDIV
  simp only [h1, hr1, h2, hr2, h3, regSet, if_pos hcl]
  rw [if_neg (by tauto)]

theorem length_writeWord (heap : List Nat) (a w : Nat) :
    (writeWord heap a w).length = heap.length := by
  unfold writeWord
  simp

theorem storeWord_ok (heap : List Nat) (v : Int) (a : Nat) (h : a + 4 ≤ heap.length) :
    storeWordIntoHeap heap v a = .ok (writeWord heap a (u32ofI32 v)) := by
  unfold storeWordIntoHeap writeWord
  unfold storeBytes
  rw [if_pos (by omega)]
  unfold storeBytes
  rw [if_pos (by simp; omega)]
  unfold storeBytes
  rw [if_pos (by simp; omega)]
  unfold storeBytes
  rw [if_pos (by simp; omega)]
  rfl

theorem getD_writeWord0 (heap : List Nat) (a w : Nat) (h : a + 4 ≤ heap.length) :
    (writeWord heap a w).getD a 0 = w / 2 ^ 24 % 256 := by
  unfold writeWord
  rw [List.getD_eq_getElem?_getD]
  rw [List.getElem?_set_ne (by omega), List.getElem?_set_ne (by omega),
      List.getElem?_set_ne (by omega), List.getElem?_set_eq_of_lt _ (by omega)]
  rfl

theorem getD_writeWord1 (heap : List Nat) (a w : Nat) (h : a + 4 ≤ heap.length) :
    (writeWord heap a w).getD (a + 1) 0 = w / 2 ^ 16 % 256 := by
  unfold writeWord
  rw [List.getD_eq_getElem?_getD]
  rw [List.getElem?_set_ne (by omega), List.getElem?_set_ne (by omega),
      List.getElem?_set_eq_of_lt _ (by simp; omega)]
  rfl

theorem getD_writeWord2 (heap : List Nat) (a w : Nat) (h : a + 4 ≤ heap.length) :
    (writeWord heap a w).getD (a + 2) 0 = w / 2 ^ 8 % 256 := by
  unfold writeWord
  rw [List.getD_eq_getElem?_getD]
  rw [List.getElem?_set_ne (by omega), List.getElem?_set_eq_of_lt _ (by simp; omega)]
  rfl

theorem getD_writeWord3 (heap : List Nat) (a w : Nat) (h : a + 4 ≤ heap.length) :
    (writeWord heap a w).getD (a + 3) 0 = w % 256 := by
  unfold writeWord
  rw [List.getD_eq_getElem?_getD]
  rw [List.getElem?_set_eq_of_lt _ (by simp; omega)]
  rfl

theorem bytes_reassemble (w : Nat) (h : w < 2 ^ 32) :
    w / 2 ^ 24 % 256 * 2 ^ 24 + w / 2 ^ 16 % 256 * 2 ^ 16 + w / 2 ^ 8 % 256 * 2 ^ 8 + w % 256 = w := by
  have e24 : (2 : Nat) ^ 24 = 16777216 := by norm_num
  have e16 : (2 : Nat) ^ 16 = 65536 := by norm_num
  have e8 : (2 : Nat) ^ 8 = 256 := by norm_num
  have e32 : (2 : Nat) ^ 32 = 4294967296 := by norm_num
  rw [e24, e16, e8, e32] at *
  omega

theorem loadWord_writeWord (heap : List Nat) (a w : Nat)
    (h : a + 4 ≤ heap.length) (hw : w < 2 ^ 32) :
    loadWordFromHeap (writeWord heap a w) a = some w := by
  unfold loadWordFromHeap
  rw [if_pos (by rw [length_writeWord]; omega)]
  rw [getD_writeWord0 heap a w h, getD_writeWord1 heap a w h,
      getD_writeWord2 heap a w h, getD_writeWord3 heap a w h]
  rw [bytes_reassemble w hw]

theorem u32ofI32_lt (v : Int) : u32ofI32 v < 2 ^ 32 := by
  unfold u32ofI32
  omega

theorem i32ofU32_u32ofI32 (v : Int) (h1 : -(2 ^ 31) ≤ v) (h2 : v < 2 ^ 31) :
    i32ofU32 (u32ofI32 v) = v := by
  unfold i32ofU32 u32ofI32
  split <;> omega

theorem usizeAdd_usizeOfI32 (b : Int) (off : Nat) (h0 : 0 ≤ b) (h31 : b < 2 ^ 31)
    (hs : b.toNat + off < 2 ^ 64) :
    usizeAdd (usizeOfI32 b) off = b.toNat + off := by
  unfold usizeAdd usizeOfI32
  omega

theorem execSW_eq (vm : VM) (i1 i2 off : Nat) (v bse : Int)
    (h1 : vm.program.get? vm.pc = some i1)
    (hv : regGet vm.registers i1 = some v)
    (h2 : vm.program.get? (vm.pc + 1) = some i2)
    (hbase : regGet vm.registers i2 = some bse)
    (h3 : vm.program.get? (vm.pc + 2) = some off)
    (h0 : 0 ≤ bse) (h31 : bse < 2 ^ 31)
    (hs : bse.toNat + off < 2 ^ 64)
    (hbnd : bse.toNat + off + 4 ≤ vm.heap.length) :
    execSW vm = StepResult.ok
      { vm with heap := writeWord vm.heap (bse.toNat + off) (u32ofI32 v), pc := vm.pc + 3 } true := by
  unfold execSW
  simp only [h1, hv, h2, hbase, h3]
  rw [usizeAdd_usizeOfI32 bse off h0 h31 hs]
  rw [storeWord_ok vm.heap v _ hbnd]

theorem execLW_eq (vm : VM) (rd i2 off : Nat) (bse : Int) (w : Nat)
    (h1 : vm.program.get? vm.pc = some rd)
    (h2 : vm.program.get? (vm.pc + 1) = some i2)
    (hbase : regGet vm.registers i2 = some bse)
    (h3 : vm.program.get? (vm.pc + 2) = some off)
    (h0 : 0 ≤ bse) (h31 : bse < 2 ^ 31)
    (hs : bse.toNat + off < 2 ^ 64)
    (hload : loadWordFromHeap vm.heap (bse.toNat + off) = some w)
    (hrd : rd < vm.registers.length) :
    execLW vm = StepResult.ok
      { vm with registers := vm.registers.set rd (i32ofU32 w), pc := vm.pc + 3 } true := by
  unfold execLW
  simp only [h1, h2, hbase, h3]
  rw [usizeAdd_usizeOfI32 bse off h0 h31 hs]
  simp only [hload, regSet, if_pos hrd]

/-! ## C1 (amended): DIV with a nonzero, non-overflowing divisor -/

/-- C1 (amended): for every machine state about to execute a DIV instruction
with operand bytes `a`, `b` and destination byte `c` all naming registers
inside the file, PROVIDED the divisor register is nonzero and the operand
pair is not the overflowing `(i32::MIN, -1)`, one step writes the 32-bit
wrap of `register[a] + register[b]` (the sum, not the quotient) to
`register[c]`, stores the `u32` bit pattern of the truncated remainder
`register[a] % register[b]` in the remainder field, and advances the PC by
4 bytes. Without the proviso the step panics (see the counterexample). -/
theorem div_step_effect (vm : VM) (a b c : Nat) (r1 r2 : Int)
    (h5 : vm.program.get? vm.pc = some 5)
    (ha : vm.program.get? (vm.pc + 1) = some a)
    (hb : vm.program.get? (vm.pc + 2) = some b)
    (hc : vm.program.get? (vm.pc + 3) = some c)
    (hr1 : regGet vm.registers a = some r1)
    (hr2 : regGet vm.registers b = some r2)
    (hcl : c < vm.registers.length)
    (hz : r2 ≠ 0) (hov : ¬(r1 = -(2 ^ 31) ∧ r2 = -1)) :
    VM.step vm = StepResult.ok
      { vm with
          registers := vm.registers.set c (wrap32 (r1 + r2))
          pc := vm.pc + 4
          remainder := u32ofI32 (Int.tmod r1 r2) } true := by
  rw [step_exec vm 5 h5]
  exact execDIV_eq _ a b c r1 r2 ha hr1 hb hr2 hc hcl hz hov

/-- Witness for the amended C1 at `divSevenTwoVM` (`DIV $0, $1, $2` with
`registers[0] = 7`, `registers[1] = 2`): destination 9, remainder 1, PC 4. -/
theorem div_step_effect_witness :
    VM.step divSevenTwoVM = StepResult.ok
      { divSevenTwoVM with
          registers := divSevenTwoVM.registers.set 2 (wrap32 (7 + 2))
          pc := divSevenTwoVM.pc + 4
          remainder := u32ofI32 (Int.tmod 7 2) } true :=
  div_step_effect divSevenTwoVM 0 1 2 7 2 rfl rfl rfl rfl (by decide) (by decide)
    (by decide) (by decide) (by decide)

/-! ## C8: ADD, SUB, MUL use two's-complement 32-bit wraparound -/

/-- C8: for every machine state whose operand bytes name in-range registers
holding arbitrary `i32` values `r1`, `r2` — including pairs whose exact sum,
difference or product does not fit in 32 bits — an ADD (opcode 2), SUB
(opcode 3) or MUL (opcode 4) step writes `wrap32` of the exact result (the
two's-complement value reduced modulo `2 ^ 32`) to the destination register
and advances the PC by 4 bytes. -/
theorem arith_ops_wraparound (vm : VM) (a b c : Nat) (r1 r2 : Int)
    (ha : vm.program.get? (vm.pc + 1) = some a)
    (hb : vm.program.get? (vm.pc + 2) = some b)
    (hc : vm.program.get? (vm.pc + 3) = some c)
    (hr1 : regGet vm.registers a = some r1)
    (hr2 : regGet vm.registers b = some r2)
    (hcl : c < vm.registers.length) :
    (vm.program.get? vm.pc = some 2 → VM.step vm = StepResult.ok
      { vm with registers := vm.registers.set c (wrap32 (r1 + r2)), pc := vm.pc + 4 } true) ∧
    (vm.program.get? vm.pc = some 3 → VM.step vm = StepResult.ok
      { vm with registers := vm.registers.set c (wrap32 (r1 - r2)), pc := vm.pc + 4 } true) ∧
    (vm.program.get? vm.pc = some 4 → VM.step vm = StepResult.ok
      { vm with registers := vm.registers.set c (wrap32 (r1 * r2)), pc := vm.pc + 4 } true) := by
  refine ⟨fun h => ?_, fun h => ?_, fun h => ?_⟩
  · rw [step_exec vm 2 h]
    exact execArith_eq _ _ a b c r1 r2 ha hb hc hr1 hr2 hcl
  · rw [step_exec vm 3 h]
    exact execArith_eq _ _ a b c r1 r2 ha hb hc hr1 hr2 hcl
  · rw [step_exec vm 4 h]
    exact execArith_eq _ _ a b c r1 r2 ha hb hc hr1 hr2 hcl

/-- Witness for C8 at `addTenVM` (the spec's §8 example `ADD 0,1,2` with
both operands 10): destination 20, PC 4. -/
theorem arith_ops_wraparound_witness :
    VM.step addTenVM = StepResult.ok
      { addTenVM with registers := addTenVM.registers.set 2 (wrap32 (10 + 10)), pc := addTenVM.pc + 4 }
      true :=
  (arith_ops_wraparound addTenVM 0 1 2 10 10 rfl rfl rfl (by decide) (by decide) (by decide)).1 rfl

/-! ## C10: JMPB under its no-underflow precondition -/

/-- C10: a JMPB step whose operand register holds a non-negative value `v`
with `v ≤ pc + 2` (where `pc` is the PC at the start of the instruction, so
`pc + 2` is the PC after the opcode and operand byte are consumed) sets the
new PC to exactly `(pc + 2) - v`: under this precondition the `usize`
subtraction is exact and cannot underflow. -/
theorem jmpb_in_range (vm : VM) (r : Nat) (v : Int)
    (h8 : vm.program.get? vm.pc = some 8)
    (hr : vm.program.get? (vm.pc + 1) = some r)
    (hv : regGet vm.registers r = some v)
    (h0 : 0 ≤ v) (h31 : v < 2 ^ 31)
    (hle : v.toNat ≤ vm.pc + 2)
    (hpc : vm.pc + 2 < 2 ^ 64) :
    VM.step vm = StepResult.ok { vm with pc := vm.pc + 2 - v.toNat } true := by
  rw [step_exec vm 8 h8]
  show execJMPB _ = _
  unfold execJMPB
  simp only [hr, hv]
  have e1 : usizeSub (vm.pc + 1 + 1) (usizeOfI32 v) = vm.pc + 2 - v.toNat := by
    unfold usizeSub usizeOfI32
    omega
  rw [e1]

/-- Witness for C10 at `jmpbVM` (`JMPB $0` with `registers[0] = 2`, PC 0):
the new PC is (0 + 2) - 2 = 0. -/
theorem jmpb_in_range_witness :
    VM.step jmpbVM = StepResult.ok { jmpbVM with pc := jmpbVM.pc + 2 - (2 : Int).toNat } true :=
  jmpb_in_range jmpbVM 0 2 rfl rfl (by decide) (by decide) (by decide) (by decide) (by decide)

/-! ## C7: SW then LW at the same composed address round-trips the value -/

/-- C7: for every in-bounds composed heap address `register[rb] + off` (base
value non-negative, 4-byte window inside the heap), every stored register
value `v` and all register indices below 32, running the two-instruction
program `[SW rs, rb, off, LW rd, rb, off]` performs two normal steps after
which `register[rd]` holds exactly `v`. -/
theorem sw_lw_roundtrip (vm : VM) (rs rb rd off : Nat) (b v : Int)
    (hprog : vm.program = [17, rs, rb, off, 16, rd, rb, off])
    (hpc : vm.pc = 0)
    (hlen : vm.registers.length = 32)
    (hheap : vm.heap.length = 1000)
    (hrs : regGet vm.registers rs = some v)
    (hrb : regGet vm.registers rb = some b)
    (hrd : rd < 32)
    (hb0 : 0 ≤ b)
    (hv1 : -(2 ^ 31) ≤ v) (hv2 : v < 2 ^ 31)
    (hbnd : b.toNat + off + 4 ≤ 1000) :
    ∃ vm1 vm2, VM.step vm = StepResult.ok vm1 true ∧ VM.step vm1 = StepResult.ok vm2 true ∧
      regGet vm2.registers rd = some v := by
  have h31 : b < 2 ^ 31 := by omega
  have hs : b.toNat + off < 2 ^ 64 := by omega
  have hp0 : vm.program.get? vm.pc = some 17 := by rw [hprog, hpc]; rfl
  have hp1 : vm.program.get? (vm.pc + 1) = some rs := by rw [hprog, hpc]; rfl
  have hp2 : vm.program.get? (vm.pc + 2) = some rb := by rw [hprog, hpc]; rfl
  have hp3 : vm.program.get? (vm.pc + 3) = some off := by rw [hprog, hpc]; rfl
  refine ⟨{ vm with heap := writeWord vm.heap (b.toNat + off) (u32ofI32 v), pc := vm.pc + 4 },
    { vm with
        heap := writeWord vm.heap (b.toNat + off) (u32ofI32 v)
        registers := vm.registers.set rd (i32ofU32 (u32ofI32 v))
        pc := vm.pc + 8 }, ?_, ?_, ?_⟩
  · rw [step_exec vm 17 hp0]
    exact execSW_eq _ rs rb off v b hp1 hrs hp2 hrb hp3 hb0 h31 hs
      (by show b.toNat + off + 4 ≤ vm.heap.length; omega)
  · have hq0 : vm.program.get? (vm.pc + 4) = some 16 := by rw [hprog, hpc]; rfl
    have hq1 : vm.program.get? (vm.pc + 4 + 1) = some rd := by rw [hprog, hpc]; rfl
    have hq2 : vm.program.get? (vm.pc + 4 + 2) = some rb := by rw [hprog, hpc]; rfl
    have hq3 : vm.program.get? (vm.pc + 4 + 3) = some off := by rw [hprog, hpc]; rfl
    rw [step_exec { vm with heap := writeWord vm.heap (b.toNat + off) (u32ofI32 v), pc := vm.pc + 4 }
      16 hq0]
    exact execLW_eq _ rd rb off b (u32ofI32 v) hq1 hq2 hrb hq3 hb0 h31 hs
      (loadWord_writeWord vm.heap (b.toNat + off) (u32ofI32 v) (by omega) (u32ofI32_lt v))
      (by rw [hlen]; exact hrd)
  · show regGet (vm.registers.set rd (i32ofU32 (u32ofI32 v))) rd = some v
    unfold regGet
    rw [List.get?_eq_getElem?, List.getElem?_set_eq_of_lt _ (by rw [hlen]; exact hrd)]
    rw [i32ofU32_u32ofI32 v hv1 hv2]

/-- Witness for C7 at `swLwVM`, the spec's §8 example: after the SW and LW
steps register 3 holds 1589. -/
theorem sw_lw_roundtrip_witness :
    ∃ vm1 vm2, VM.step swLwVM = StepResult.ok vm1 true ∧ VM.step vm1 = StepResult.ok vm2 true ∧
      regGet vm2.registers 3 = some 1589 :=
  sw_lw_roundtrip swLwVM 1 2 3 8 32 1589 rfl rfl (by decide) (by decide) (by decide)
    (by decide) (by decide) (by decide) (by decide) (by decide) (by decide)

end RegVM
